import Mathlib

/-!
# Job Helper: the `App` component of `src/App.jsx`

A shallow embedding of the React component: its state variables, its event
handlers, the regular expression that extracts the JSON document from the
model's reply, the prompt assembly, the reveal effect and the buttons the
view offers.  JavaScript built-ins that the component calls but does not
define (`JSON.parse`, `FileReader`, the engine's message for a property read
on `null`, the numeric comparison against a non-number) and the configured
API key are parameters collected in `Env`; the chat completion service is a
parameter of the event that settles a request.

State updates made in one synchronous stretch of a handler are applied
together, as React batches them.  Errors thrown while rendering (the view
maps over `aiResponse` without checking that it is an array) are outside the
model: the state machine describes the component while it stays mounted.
-/

namespace JobHelper

/-! ## JavaScript values -/

/-- A JavaScript string, as the sequence of its code units. -/
abbrev JsString := List Char

/-- A value produced by `JSON.parse`.  A number is identified by its
`Number::toString` rendering, which determines the number up to the sign of
zero; the component never tells `+0` from `-0`. -/
inductive Json where
  | null : Json
  | bool (b : Bool) : Json
  | num (rendering : JsString) : Json
  | str (s : JsString) : Json
  | arr (items : List Json) : Json
  | obj (props : List (JsString × Json)) : Json

/-- A JavaScript value the component handles: `undefined` or a JSON value. -/
abbrev JsValue := Option Json

/-- Own-property lookup on the property list of a parsed object. -/
def lookupProp (key : JsString) : List (JsString × Json) → JsValue
  | [] => none
  | (k, v) :: rest => if k = key then some v else lookupProp key rest

/-- The coercion `ToBoolean` on a JSON value: `null`, `false`, zero and the empty string
are falsy, everything else (every array and object included) is truthy. -/
def Json.truthy : Json → Bool
  | .null => false
  | .bool b => b
  | .num r => r != "0".toList
  | .str s => !s.isEmpty
  | .arr _ => true
  | .obj _ => true

/-- The coercion `ToBoolean` on a value that may be `undefined`. -/
def truthy : JsValue → Bool
  | none => false
  | some v => v.truthy

/-! ## The regular expression `/\{[\s\S]*\}/` (App.jsx line 193) -/

/-- The code unit `{`. -/
def openBrace : Char := '\x7b'

/-- The code unit `}`. -/
def closeBrace : Char := '\x7d'

/-- The tail `[\s\S]*\}` of the pattern, matched at the head of the input by
backtracking: the greedy star first takes the next code unit and tries the
rest; when that fails it stops, and `\}` has to match the code unit itself.
Returns the matched text. -/
def matchStarClose : JsString → Option JsString
  | [] => none
  | c :: cs =>
    match matchStarClose cs with
    | some m => some (c :: m)
    | none => if c = closeBrace then some [c] else none

/-- The whole pattern `\{[\s\S]*\}` anchored at the head of the input. -/
def matchAt : JsString → Option JsString
  | [] => none
  | c :: cs => if c = openBrace then (matchStarClose cs).map (c :: ·) else none

/-- The call `responseText.match(/\{[\s\S]*\}/)`: the match at the leftmost
start position that has one; `none` is the `null` result.  The value is
`jsonMatch[0]`. -/
def regexMatch : JsString → Option JsString
  | [] => none
  | c :: cs =>
    match matchAt (c :: cs) with
    | some m => some m
    | none => regexMatch cs

/-! ## String coercion (`prev + aiResponse[currentIndex]`, line 27) -/

/-- Whether a parsed object has an own property with this key. -/
def hasKey (key : JsString) : List (JsString × Json) → Bool
  | [] => false
  | (k, _) :: rest => k == key || hasKey key rest

mutual
/-- The coercion `ToString` on a JSON value; `none` is the `TypeError` that
`ToPrimitive` throws for an object whose own `toString` property shadows the
inherited method with a value that cannot be called.  A plain object renders
as `[object Object]`, an array as the `join` of its elements. -/
def toStringJs : Json → Option JsString
  | .null => some "null".toList
  | .bool b => some (if b then "true".toList else "false".toList)
  | .num r => some r
  | .str s => some s
  | .arr items => (joinItems items).map (List.drop 1)
  | .obj props =>
    if hasKey "toString".toList props then none else some "[object Object]".toList
termination_by structural v => v
/-- The loop of `Array.prototype.join`: every element preceded by a comma
(the caller drops the first one); `null` elements render as the empty
string. -/
def joinItems : List Json → Option JsString
  | [] => some []
  | x :: rest =>
    match (match x with | .null => some [] | v => toStringJs v), joinItems rest with
    | some a, some b => some (',' :: a ++ b)
    | _, _ => none
termination_by structural l => l
end

/-- The concatenation `prev + x` for a string `prev`; `none` is a thrown
`TypeError`. -/
def concatValue (prev : JsString) : JsValue → Option JsString
  | none => some (prev ++ "undefined".toList)
  | some v => (toStringJs v).map (prev ++ ·)

/-- The increment `prev + 1` on a JavaScript number holding a natural number:
exact below `2 ^ 53`, where the sum rounds back to `2 ^ 53`. -/
def jsIncrement (k : Nat) : Nat := if k < 2 ^ 53 then k + 1 else k

/-! ## Environment -/

/-- A `File` picked in one of the file inputs. -/
structure File where
  name : JsString
  type : JsString
  bytes : List Nat

/-- What the component takes from outside its own source: built-ins of the
JavaScript engine and the browser, and the build configuration. -/
structure Env where
  /-- The built-in `JSON.parse`: the parsed value, or the message of the
  `SyntaxError` it throws. -/
  jsonParse : JsString → Except JsString Json
  /-- Message of the `TypeError` thrown by a property read on `null`. -/
  nullReadMessage : JsString
  /-- The comparison `k < v` of a natural number with a JSON value. -/
  ltValue : Nat → Json → Bool
  /-- The call `FileReader.readAsDataURL`: the result string, or `none` when
  the reader fires `onerror`. -/
  readAsDataURL : File → Option JsString
  /-- The setting `import.meta.env.VITE_OPENAI_API_KEY`; `none` is `undefined`. -/
  apiKey : Option JsString

/-- What the `try` block of `sendDataToOpenAI` can throw (lines 138-204). -/
inductive Thrown where
  /-- A `FileReader` error event rejected `convertImageToBase64` (line 119). -/
  | readFailed : Thrown
  /-- The chat completion call, or reading its first choice, threw an error
  with this message (lines 139-190). -/
  | apiFailed (message : JsString) : Thrown
  /-- The reply has no match for the pattern (line 195). -/
  | noJsonObject : Thrown
  /-- The built-in `JSON.parse` threw a `SyntaxError` (line 198). -/
  | syntaxError (message : JsString) : Thrown
  /-- The parsed document is `null`, so reading `.qaPair` threw (line 200). -/
  | nullRead (message : JsString) : Thrown
  /-- The `qaPair` property is falsy (line 203). -/
  | missingQaPair : Thrown

/-- The text that `err.message` contributes to the template on line 207. -/
def Thrown.message : Thrown → JsString
  | .readFailed => "undefined".toList
  | .apiFailed m => m
  | .noJsonObject => "Response does not contain valid JSON.".toList
  | .syntaxError m => m
  | .nullRead m => m
  | .missingQaPair => "AI response does not contain 'qaPair'.".toList

/-! ## Response parsing (lines 192-204) -/

/-- The read `parsedResponse.qaPair`: an own property of an object, `undefined`
on any other non-null value, a `TypeError` on `null`. -/
def readQaPair (env : Env) : Json → Except Thrown JsValue
  | .null => .error (.nullRead env.nullReadMessage)
  | .obj props => .ok (lookupProp "qaPair".toList props)
  | _ => .ok none

/-- Lines 198-204: parse the matched text and check `qaPair`; the value
handed to `setAiResponse`, or what is thrown. -/
def parseCandidate (env : Env) (jsonText : JsString) : Except Thrown Json :=
  match env.jsonParse jsonText with
  | .error m => .error (.syntaxError m)
  | .ok parsedResponse =>
    match readQaPair env parsedResponse with
    | .error e => .error e
    | .ok none => .error .missingQaPair
    | .ok (some qaPair) =>
      if qaPair.truthy then .ok qaPair else .error .missingQaPair

/-- Lines 192-204: match the pattern against the reply (lines 193-196), then
parse the match `jsonMatch[0]`. -/
def extractQaPair (env : Env) (responseText : JsString) : Except Thrown Json :=
  match regexMatch responseText with
  | none => .error .noJsonObject
  | some jsonMatch => parseCandidate env jsonMatch

/-! ## Prompt assembly (lines 144-173) -/

/-- One element of the user message `content` array. -/
inductive ContentPart where
  | imageUrl (url : JsString) : ContentPart
  | text (text : JsString) : ContentPart

/-- The call `s.split(',')`. -/
def splitComma : JsString → List JsString
  | [] => [[]]
  | c :: cs =>
    match splitComma cs with
    | [] => [[]]
    | piece :: pieces => if c = ',' then [] :: piece :: pieces else (c :: piece) :: pieces

/-- How a template literal renders a string that may be `undefined`. -/
def interpolate : Option JsString → JsString
  | none => "undefined".toList
  | some s => s

/-- The function `convertImageToBase64` (lines 115-122): the second
comma-separated piece of the data URL; the outer `none` is the rejection, the
inner one an `undefined` result. -/
def convertImageToBase64 (env : Env) (file : File) : Option (Option JsString) :=
  (env.readAsDataURL file).map fun result => (splitComma result)[1]?

/-- The text that line 148 interpolates for a file whose read succeeded. -/
def encodedText (env : Env) (file : File) : Option JsString :=
  (convertImageToBase64 env file).join

/-- The image part built for one file (lines 145-150). -/
def imagePart (file : File) (base64 : Option JsString) : ContentPart :=
  .imageUrl ("data:".toList ++ file.type ++ ";base64,".toList ++ interpolate base64)

/-- The `Promise.all` over the image files (lines 144-151): every part in
the order of the files, or a rejection as soon as one read fails. -/
def imageContents (env : Env) : List File → Except Thrown (List ContentPart)
  | [] => .ok []
  | file :: files =>
    match convertImageToBase64 env file, imageContents env files with
    | some base64, .ok parts => .ok (imagePart file base64 :: parts)
    | _, _ => .error .readFailed

/-- The template literal of lines 155-170 up to `${websiteData}`. -/
def promptHead : JsString :=
  ("Please analyze the following content:\n" ++
   "        Website Data: ").toList

/-- The template literal between `${websiteData}` and `${pdfText}`. -/
def promptMiddle : JsString :=
  ("\n" ++
   "        Resume (PDF Text): ").toList

/-- The template literal after `${pdfText}`. -/
def promptTail : JsString :=
  ("\n" ++
   "\n" ++
   "        Based on the website data, resume, and the images provided, " ++
   "please answer the questions in the image as if you are the person " ++
   "from the resume. The image has job-related questions for a company. " ++
   "The website data is about the company, and you need to answer as a " ++
   "job applicant using context from the resume.\n" ++
   "\n" ++
   "        Provide the questions and answers in the following JSON " ++
   "format. Strictly return a JSON object without any additional text:\n" ++
   "\n" ++
   "        \x7b\n" ++
   "          \"qaPair\": [\n" ++
   "            \x7b \"index\": 0, \"question\": \"What are your skills?\", " ++
   "\"answer\": \"I am proficient in React and backend development.\" \x7d,\n" ++
   "            \x7b \"index\": 1, \"question\": \"Why do you want to join us?\", " ++
   "\"answer\": \"Your company's vision aligns with my goals.\" \x7d\n" ++
   "          ]\n" ++
   "        \x7d\n" ++
   "\n" ++
   "        Return only the JSON object above.").toList

/-- The template literal of lines 155-170. -/
def promptText (websiteData pdfText : JsString) : JsString :=
  promptHead ++ websiteData ++ promptMiddle ++ pdfText ++ promptTail

/-- The object `textContent` (lines 153-171). -/
def textContent (websiteData pdfText : JsString) : ContentPart :=
  .text (promptText websiteData pdfText)

/-- The array `content` (line 173): the image parts, then the text part. -/
def buildContent (env : Env) (imageFiles : List File) (websiteData pdfText : JsString) :
    Except Thrown (List ContentPart) :=
  match imageContents env imageFiles with
  | .error e => .error e
  | .ok parts => .ok (parts ++ [textContent websiteData pdfText])

/-! ## Component state (lines 10-21) -/

/-- The twelve `useState` variables of `App`. -/
structure AppState where
  pdfText : JsString
  error : JsString
  imageFiles : List File
  websiteData : JsString
  url : JsString
  isLoading : Bool
  aiResponse : Json
  displayedResponse : JsString
  currentIndex : Nat
  showUploadSection : Bool
  websiteFetched : Bool
  showGoToUploadButton : Bool

/-- The initial values passed to `useState`. -/
def initialState : AppState where
  pdfText := []
  error := []
  imageFiles := []
  websiteData := []
  url := []
  isLoading := false
  aiResponse := .str []
  displayedResponse := []
  currentIndex := 0
  showUploadSection := true
  websiteFetched := false
  showGoToUploadButton := false

/-- The state variables that a running `sendDataToOpenAI` call closed over
when it was started and from which it builds its request. -/
structure Pending where
  imageFiles : List File
  websiteData : JsString
  pdfText : JsString

/-- The component together with the `sendDataToOpenAI` calls that are
suspended at an `await`. -/
structure Session where
  app : AppState
  pending : List Pending

/-- The freshly mounted component. -/
def Session.initial : Session := ⟨initialState, []⟩

/-! ## Upload and fetch handlers (lines 35-112) -/

/-- One iteration of the loop in `handlePdfUpload` up to its `await`
(lines 40-46). -/
def handlePdfUpload (file : File) (s : AppState) : AppState :=
  if file.type = "application/pdf".toList then { s with error := [] }
  else { s with error := "Please upload a valid PDF file.".toList }

/-- The end of `extractTextFromPdf` (lines 76-79): `some text` when the
document was read, `none` when the library threw. -/
def extractTextFromPdf (result : Option JsString) (s : AppState) : AppState :=
  match result with
  | some text => { s with pdfText := text }
  | none => { s with error := "Failed to extract text from the PDF.".toList }

/-- The test `file.type.startsWith('image/')`. -/
def isImageFile (file : File) : Bool := "image/".toList.isPrefixOf file.type

/-- The handler `handleImageUpload` (lines 51-62), run over the selected
files in order. -/
def handleImageUpload (files : List File) (s : AppState) : AppState :=
  files.foldl
    (fun st file =>
      if isImageFile file then { st with error := [], imageFiles := st.imageFiles ++ [file] }
      else { st with error := "Please upload a valid image file.".toList })
    s

/-- The handler `handleUrlSubmit` (lines 106-112) up to the start of the
fetch; the second component says whether a fetch was started. -/
def handleUrlSubmit (s : AppState) : AppState × Bool :=
  if s.url.isEmpty then ({ s with error := "Please enter a valid URL.".toList }, false)
  else (s, true)

/-- The end of `fetchWebsiteText` (lines 98-102): the page text, or the
message of the error that was caught. -/
def fetchWebsiteText (result : Except JsString JsString) (s : AppState) : AppState :=
  match result with
  | .ok textContent => { s with websiteData := textContent, websiteFetched := true }
  | .error message => { s with error := "Error fetching data: ".toList ++ message }

/-! ## Submitting (lines 125-213) -/

/-- The falsiness test `!OPENAI_API_KEY` (line 128), negated. -/
def keyConfigured (env : Env) : Bool :=
  match env.apiKey with
  | none => false
  | some key => !key.isEmpty

/-- The chat completion call as seen by the component (lines 139-143 and
175-193): from the user message parts to the reply text that reaches the
pattern match, or to the message of the error thrown on the way (by the
client, by the read of the first choice, or by calling `match` on a reply
that is not a string). -/
abbrev Api := List ContentPart → Except JsString JsString

/-- The function `sendDataToOpenAI` up to its first `await` (lines 126-136). -/
def sendDataToOpenAI.start (env : Env) (σ : Session) : Session :=
  if keyConfigured env then
    { app := { σ.app with isLoading := true, showUploadSection := false,
                          displayedResponse := [], currentIndex := 0 }
      pending := σ.pending ++ [⟨σ.app.imageFiles, σ.app.websiteData, σ.app.pdfText⟩] }
  else
    { σ with app := { σ.app with error :=
        "OpenAI API key not configured. Please add it to your environment variables.".toList } }

/-- The `try` block (lines 138-204) of a call that closed over `p`. -/
def sendDataToOpenAI.tryBlock (env : Env) (api : Api) (p : Pending) : Except Thrown Json :=
  match buildContent env p.imageFiles p.websiteData p.pdfText with
  | .error e => .error e
  | .ok content =>
    match api content with
    | .error message => .error (.apiFailed message)
    | .ok responseText => extractQaPair env responseText

/-- The state updates of `try`, `catch` and `finally` (lines 201-211) for the
given result of the `try` block. -/
def sendDataToOpenAI.settle (result : Except Thrown Json) (s : AppState) : AppState :=
  let s1 : AppState :=
    match result with
    | .ok qaPair => { s with aiResponse := qaPair }
    | .error err => { s with error := "Error contacting OpenAI: ".toList ++ err.message }
  { s1 with isLoading := false, showGoToUploadButton := true }

/-! ## The reveal effect (lines 24-33) -/

/-- The comparison `currentIndex < aiResponse.length` for a truthy
`aiResponse`: arrays and strings have a length, a plain object has one only
as an own property, numbers and booleans have none. -/
def indexBelowLength (env : Env) (k : Nat) : Json → Bool
  | .arr items => decide (k < items.length)
  | .str s => decide (k < s.length)
  | .obj props =>
    match lookupProp "length".toList props with
    | none => false
    | some len => env.ltValue k len
  | _ => false

/-- The condition of the effect (line 25): a timer is scheduled. -/
def revealDue (env : Env) (s : AppState) : Bool :=
  s.aiResponse.truthy && indexBelowLength env s.currentIndex s.aiResponse

/-- The read `aiResponse[currentIndex]`. -/
def elementAt (k : Nat) : Json → JsValue
  | .arr items => items[k]?
  | .str s => s[k]?.map fun c => .str [c]
  | .obj props => lookupProp (Nat.repr k).toList props
  | _ => none

/-- The timer callback (lines 27-28); `none` when the string concatenation
throws. -/
def revealTick (s : AppState) : Option AppState :=
  (concatValue s.displayedResponse (elementAt s.currentIndex s.aiResponse)).map fun shown =>
    { s with displayedResponse := shown, currentIndex := jsIncrement s.currentIndex }

/-- The state after `n` timer callbacks in a row, each one scheduled by the
effect; `none` when one of them is not scheduled or throws. -/
def revealSteps (env : Env) : Nat → AppState → Option AppState
  | 0, s => some s
  | n + 1, s => if revealDue env s then (revealTick s).bind (revealSteps env n) else none

/-! ## The view (lines 223-305) -/

/-- The submit button is rendered inside the upload section (line 227) and
carries `disabled={isLoading}` (line 255). -/
def submitEnabled (s : AppState) : Bool := s.showUploadSection && !s.isLoading

/-- The handler of the button `Go to Upload` (lines 291-297). -/
def goToUpload (s : AppState) : AppState :=
  { s with showUploadSection := true, aiResponse := .str [], displayedResponse := [],
           currentIndex := 0, showGoToUploadButton := false }

/-- A click on the submit button: it reaches `sendDataToOpenAI` only when the
button is rendered and enabled. -/
def clickSubmit (env : Env) (σ : Session) : Session :=
  if submitEnabled σ.app then sendDataToOpenAI.start env σ else σ

/-- A click on `Go to Upload`: the button exists only while
`showGoToUploadButton` holds (line 289). -/
def clickGoToUpload (σ : Session) : Session :=
  if σ.app.showGoToUploadButton then { σ with app := goToUpload σ.app } else σ

/-! ## Events -/

/-- What can happen to a mounted component. -/
inductive Event where
  | pdfSelected (file : File)
  | pdfExtracted (result : Option JsString)
  | imagesSelected (files : List File)
  | urlTyped (value : JsString)
  | fetchClicked
  | websiteSettled (result : Except JsString JsString)
  | submitClicked
  | submitSettled (i : Nat) (api : Api)
  | revealTimer
  | goToUploadClicked

/-- The session after an event; `none` when the event cannot happen in this
session (no such suspended call, no timer scheduled, or the timer callback
throws).  The upload, typing and fetch events stand both for the user action
and for the later completion of the asynchronous work it started, so they are
not tied to what the view shows; the two button clicks are. -/
def step (env : Env) (σ : Session) : Event → Option Session
  | .pdfSelected file => some { σ with app := handlePdfUpload file σ.app }
  | .pdfExtracted result => some { σ with app := extractTextFromPdf result σ.app }
  | .imagesSelected files => some { σ with app := handleImageUpload files σ.app }
  | .urlTyped value => some { σ with app := { σ.app with url := value } }
  | .fetchClicked => some { σ with app := (handleUrlSubmit σ.app).1 }
  | .websiteSettled result => some { σ with app := fetchWebsiteText result σ.app }
  | .submitClicked => some (clickSubmit env σ)
  | .submitSettled i api =>
    match σ.pending[i]? with
    | none => none
    | some p =>
      some { app := sendDataToOpenAI.settle (sendDataToOpenAI.tryBlock env api p) σ.app
             pending := σ.pending.eraseIdx i }
  | .revealTimer =>
    if revealDue env σ.app then (revealTick σ.app).map fun s => { σ with app := s } else none
  | .goToUploadClicked => some (clickGoToUpload σ)

/-- The sessions the component can be in. -/
inductive Reachable (env : Env) : Session → Prop where
  | initial : Reachable env Session.initial
  | next {σ σ1 : Session} (e : Event) : Reachable env σ → step env σ e = some σ1 →
      Reachable env σ1

/-- Exactly one of the three flags that select what the view shows is set:
`showUploadSection`, `isLoading`, `showGoToUploadButton`. -/
def onePhase (s : AppState) : Bool :=
  (s.showUploadSection && !s.isLoading && !s.showGoToUploadButton) ||
  (!s.showUploadSection && s.isLoading && !s.showGoToUploadButton) ||
  (!s.showUploadSection && !s.isLoading && s.showGoToUploadButton)

/-- What holds of every session the component can be in: one phase flag is
set, a call is suspended exactly while `isLoading` holds, no answer is held
unless `Go to Upload` is shown, and the reveal has not moved while a call is
suspended. -/
structure Session.Consistent (σ : Session) : Prop where
  phase : onePhase σ.app = true
  pending : σ.pending.length = if σ.app.isLoading then 1 else 0
  noAnswer : σ.app.showGoToUploadButton = false → σ.app.aiResponse = .str []
  fresh : σ.app.isLoading = true → σ.app.currentIndex = 0 ∧ σ.app.displayedResponse = []

/-! ## Shapes named by the specification -/

/-- The shape the specification asks of `qaPair`: a sequence of objects, each
with an `index`, a `question` and an `answer`. -/
def specQaPairShape : Json → Bool
  | .arr items =>
    items.all fun item =>
      match item with
      | .obj props =>
        hasKey "index".toList props && hasKey "question".toList props &&
          hasKey "answer".toList props
      | _ => false
  | _ => false

/-- The phase `Done`: the request is over, the button `Go to Upload` is shown
and the reveal has no timer left. -/
def inDone (env : Env) (s : AppState) : Bool :=
  s.showGoToUploadButton && !s.isLoading && !revealDue env s

/-! ## Sample data for the worked examples -/

/-- A question/answer object as `JSON.parse` builds it. -/
def qaObject (index question answer : String) : Json :=
  .obj [("index".toList, .num index.toList), ("question".toList, .str question.toList),
        ("answer".toList, .str answer.toList)]

/-- The document with two pairs whose `index` fields run against the array
order. -/
def docSwapped : JsString :=
  ("\x7b\"qaPair\":[\x7b\"index\":1,\"question\":\"B\",\"answer\":\"b\"\x7d," ++
   "\x7b\"index\":0,\"question\":\"A\",\"answer\":\"a\"\x7d]\x7d").toList

/-- The document with an empty `qaPair` array. -/
def docEmpty : JsString := "\x7b\"qaPair\":[]\x7d".toList

/-- The document without a `qaPair` field. -/
def docOther : JsString := "\x7b\"other\":1\x7d".toList

/-- The document with one pair. -/
def docSingle : JsString :=
  "\x7b\"qaPair\":[\x7b\"index\":0,\"question\":\"Q\",\"answer\":\"A\"\x7d]\x7d".toList

/-- The document whose `qaPair` field is `true`. -/
def docFlag : JsString := "\x7b\"qaPair\":true\x7d".toList

/-- The built-in `JSON.parse` restricted to the sample documents; any other
text is reported as a syntax error. -/
def sampleParse (t : JsString) : Except JsString Json :=
  if t = docSwapped then
    .ok (.obj [("qaPair".toList, .arr [qaObject "1" "B" "b", qaObject "0" "A" "a"])])
  else if t = docEmpty then .ok (.obj [("qaPair".toList, .arr [])])
  else if t = docOther then .ok (.obj [("other".toList, .num "1".toList)])
  else if t = docSingle then .ok (.obj [("qaPair".toList, .arr [qaObject "0" "Q" "A"])])
  else if t = docFlag then .ok (.obj [("qaPair".toList, .bool true)])
  else .error "Unexpected token".toList

/-- A sample environment: the parser above, a reader for files that hold
three zero bytes (base64 text `AAAA`), and a configured key.  The examples
never compare an index with the `length` property of a plain object. -/
def sampleEnv : Env where
  jsonParse := sampleParse
  nullReadMessage := "Cannot read properties of null (reading 'qaPair')".toList
  ltValue := fun _ _ => false
  readAsDataURL := fun file => some ("data:".toList ++ file.type ++ ";base64,AAAA".toList)
  apiKey := some "sk-sample".toList

/-- A screenshot. -/
def samplePng : File := ⟨"q1.png".toList, "image/png".toList, [0, 0, 0]⟩

/-- A second screenshot. -/
def sampleJpeg : File := ⟨"q2.jpg".toList, "image/jpeg".toList, [0, 0, 0]⟩

/-- A file that is not an image. -/
def sampleNotes : File := ⟨"notes.txt".toList, "text/plain".toList, [0, 0, 0]⟩

/-- A chat completion that replies with a fixed text. -/
def replyWith (text : JsString) : Api := fun _ => .ok text

/-- The session after a list of events, first to last. -/
def runEvents (env : Env) : List Event → Session → Option Session
  | [], σ => some σ
  | e :: es, σ => (step env σ e).bind (runEvents env es)

/-- The events up to the submit click: a resume is read, a screenshot is
selected, the website text arrives, the submit button is clicked. -/
def submitTrace : List Event :=
  [.pdfExtracted (some "Experienced engineer".toList), .imagesSelected [samplePng],
   .websiteSettled (.ok "Acme Corp hires engineers".toList), .submitClicked]

/-- The session while the request of `submitTrace` is running. -/
def sampleSubmitting : Session :=
  (runEvents sampleEnv submitTrace Session.initial).getD Session.initial

/-- The session after the request was answered with the one-pair document. -/
def sampleRevealing : Session :=
  (runEvents sampleEnv (submitTrace ++ [.submitSettled 0 (replyWith docSingle)])
    Session.initial).getD Session.initial

/-- The session after the reveal of that answer has run out of timers. -/
def sampleDone : Session :=
  (runEvents sampleEnv (submitTrace ++ [.submitSettled 0 (replyWith docSingle), .revealTimer])
    Session.initial).getD Session.initial

/-- The session after the request was answered with a text that holds no
JSON object. -/
def sampleFailed : Session :=
  (runEvents sampleEnv (submitTrace ++ [.submitSettled 0 (replyWith "not json".toList)])
    Session.initial).getD Session.initial

/-! ## Facts about the regular expression -/

theorem matchStarClose_eq_none (cs : JsString) :
    matchStarClose cs = none ↔ closeBrace ∉ cs := by
  induction cs with
  | nil => simp [matchStarClose]
  | cons c cs ih =>
    unfold matchStarClose
    cases h : matchStarClose cs with
    | none =>
      have hcs := ih.mp h
      by_cases hc : c = closeBrace
      · simp [hc]
      · simp [hc, hcs, Ne.symm hc]
    | some m =>
      have hcs : closeBrace ∈ cs := by
        by_contra hn
        rw [ih.mpr hn] at h
        cases h
      simp [hcs]

theorem matchStarClose_eq_some (cs m : JsString) :
    matchStarClose cs = some m ↔
      ∃ mid post, cs = mid ++ closeBrace :: post ∧ closeBrace ∉ post ∧
        m = mid ++ [closeBrace] := by
  induction cs generalizing m with
  | nil => simp [matchStarClose]
  | cons c cs ih =>
    unfold matchStarClose
    cases h : matchStarClose cs with
    | none =>
      have hcs := (matchStarClose_eq_none cs).mp h
      by_cases hc : c = closeBrace
      · subst hc
        simp only [if_true]
        constructor
        · intro hm
          cases hm
          exact ⟨[], cs, rfl, hcs, rfl⟩
        · rintro ⟨mid, post, hsplit, hpost, rfl⟩
          cases mid with
          | nil => simp
          | cons a mid =>
            exfalso
            simp only [List.cons_append, List.cons.injEq] at hsplit
            apply hcs
            rw [hsplit.2]
            simp
      · simp only [hc, if_false]
        constructor
        · intro hm
          cases hm
        · rintro ⟨mid, post, hsplit, hpost, rfl⟩
          exfalso
          cases mid with
          | nil =>
            simp only [List.nil_append, List.cons.injEq] at hsplit
            exact hc hsplit.1
          | cons a mid =>
            simp only [List.cons_append, List.cons.injEq] at hsplit
            apply hcs
            rw [hsplit.2]
            simp
    | some m0 =>
      obtain ⟨mid0, post0, hsplit0, hpost0, hm0⟩ := (ih m0).mp h
      constructor
      · intro hm
        simp only [Option.some.injEq] at hm
        subst hm
        exact ⟨c :: mid0, post0, by simp [hsplit0], hpost0, by simp [hm0]⟩
      · rintro ⟨mid, post, hsplit, hpost, rfl⟩
        cases mid with
        | nil =>
          exfalso
          simp only [List.nil_append, List.cons.injEq] at hsplit
          apply hpost
          rw [← hsplit.2, hsplit0]
          simp
        | cons a mid =>
          simp only [List.cons_append, List.cons.injEq] at hsplit
          have h2 : matchStarClose cs = some (mid ++ [closeBrace]) :=
            (ih _).mpr ⟨mid, post, hsplit.2, hpost, rfl⟩
          rw [h] at h2
          simp only [Option.some.injEq] at h2
          simp [hsplit.1, h2]

theorem matchAt_cons (c : Char) (cs : JsString) :
    matchAt (c :: cs) =
      if c = openBrace then (matchStarClose cs).map (c :: ·) else none := rfl

theorem regexMatch_cons (c : Char) (cs : JsString) :
    regexMatch (c :: cs) =
      match matchAt (c :: cs) with
      | some m => some m
      | none => regexMatch cs := rfl

/-- A match is the text from the first opening brace through the last closing
brace. -/
theorem regexMatch_eq_some (text cand : JsString) :
    regexMatch text = some cand ↔
      ∃ pre mid post, text = pre ++ openBrace :: (mid ++ closeBrace :: post) ∧
        openBrace ∉ pre ∧ closeBrace ∉ post ∧
        cand = openBrace :: (mid ++ [closeBrace]) := by
  induction text generalizing cand with
  | nil =>
    constructor
    · intro h
      cases h
    · rintro ⟨pre, mid, post, hsplit, -⟩
      cases pre <;> cases hsplit
  | cons c cs ih =>
    rw [regexMatch_cons, matchAt_cons]
    by_cases hc : c = openBrace
    · subst hc
      simp only [if_true]
      cases h : matchStarClose cs with
      | some m =>
        obtain ⟨mid, post, hsplit, hpost, hm⟩ := (matchStarClose_eq_some cs m).mp h
        simp only [Option.map_some', Option.some.injEq]
        constructor
        · intro hcand
          exact ⟨[], mid, post, by simp [hsplit], by simp, hpost, by rw [← hcand, hm]⟩
        · rintro ⟨pre, mid2, post2, hsplit2, hpre, hpost2, rfl⟩
          cases pre with
          | nil =>
            simp only [List.nil_append, List.cons.injEq, true_and] at hsplit2
            have h2 : matchStarClose cs = some (mid2 ++ [closeBrace]) :=
              (matchStarClose_eq_some cs _).mpr ⟨mid2, post2, hsplit2, hpost2, rfl⟩
            rw [h] at h2
            simp only [Option.some.injEq] at h2
            rw [h2]
          | cons a pre =>
            exfalso
            simp only [List.cons_append, List.cons.injEq] at hsplit2
            apply hpre
            rw [← hsplit2.1]
            simp
      | none =>
        have hcs := (matchStarClose_eq_none cs).mp h
        simp only [Option.map_none']
        constructor
        · intro hr
          obtain ⟨pre, mid, post, hsplit, -, -, -⟩ := (ih cand).mp hr
          exfalso
          apply hcs
          rw [hsplit]
          simp
        · rintro ⟨pre, mid, post, hsplit, hpre, -, -⟩
          exfalso
          cases pre with
          | nil =>
            simp only [List.nil_append, List.cons.injEq, true_and] at hsplit
            apply hcs
            rw [hsplit]
            simp
          | cons a pre =>
            simp only [List.cons_append, List.cons.injEq] at hsplit
            apply hpre
            rw [← hsplit.1]
            simp
    · simp only [hc, if_false]
      constructor
      · intro hr
        obtain ⟨pre, mid, post, hsplit, hpre, hpost, hcand⟩ := (ih cand).mp hr
        refine ⟨c :: pre, mid, post, by simp [hsplit], ?_, hpost, hcand⟩
        simp only [List.mem_cons, not_or]
        exact ⟨Ne.symm hc, hpre⟩
      · rintro ⟨pre, mid, post, hsplit, hpre, hpost, hcand⟩
        cases pre with
        | nil =>
          exfalso
          simp only [List.nil_append, List.cons.injEq] at hsplit
          exact hc hsplit.1
        | cons a pre =>
          simp only [List.cons_append, List.cons.injEq] at hsplit
          simp only [List.mem_cons, not_or] at hpre
          exact (ih cand).mpr ⟨pre, mid, post, hsplit.2, hpre.2, hpost, hcand⟩

/-- There is no match exactly when no opening brace has a closing brace
somewhere after it. -/
theorem regexMatch_eq_none (text : JsString) :
    regexMatch text = none ↔
      ¬ ∃ pre mid post, text = pre ++ openBrace :: (mid ++ closeBrace :: post) := by
  constructor
  · intro hnone
    induction text with
    | nil =>
      rintro ⟨pre, mid, post, hsplit⟩
      cases pre <;> cases hsplit
    | cons c cs ih =>
      rw [regexMatch_cons] at hnone
      cases hm : matchAt (c :: cs) with
      | some m =>
        rw [hm] at hnone
        cases hnone
      | none =>
        rw [hm] at hnone
        simp only at hnone
        rintro ⟨pre, mid, post, hsplit⟩
        cases pre with
        | nil =>
          simp only [List.nil_append, List.cons.injEq] at hsplit
          rw [matchAt_cons, hsplit.1] at hm
          simp only [if_true, Option.map_eq_none'] at hm
          apply (matchStarClose_eq_none cs).mp hm
          rw [hsplit.2]
          simp
        | cons a pre =>
          simp only [List.cons_append, List.cons.injEq] at hsplit
          exact ih hnone ⟨pre, mid, post, hsplit.2⟩
  · intro hno
    cases h : regexMatch text with
    | none => rfl
    | some m =>
      exfalso
      obtain ⟨pre, mid, post, hsplit, -⟩ := (regexMatch_eq_some text m).mp h
      exact hno ⟨pre, mid, post, hsplit⟩

/-! ## The response parser -/

theorem parseCandidate_ne_noJsonObject (env : Env) (cand : JsString) :
    parseCandidate env cand ≠ .error .noJsonObject := by
  unfold parseCandidate
  cases env.jsonParse cand with
  | error m => simp
  | ok parsed =>
    cases parsed with
    | null => simp [readQaPair]
    | obj props =>
      simp only [readQaPair]
      cases lookupProp "qaPair".toList props with
      | none => simp
      | some v => by_cases hv : v.truthy = true <;> simp [hv]
    | bool b => simp [readQaPair]
    | num r => simp [readQaPair]
    | str t => simp [readQaPair]
    | arr items => simp [readQaPair]

/-- C1: the text handed to `JSON.parse` is the reply from its first opening
brace through its last closing brace, and the parser throws the
no-JSON-object error exactly when no opening brace has a closing brace
somewhere after it. -/
theorem candidate_is_first_brace_to_last_brace (env : Env) (text : JsString) :
    (∀ cand, regexMatch text = some cand ↔
      ∃ pre mid post, text = pre ++ openBrace :: (mid ++ closeBrace :: post) ∧
        openBrace ∉ pre ∧ closeBrace ∉ post ∧
        cand = openBrace :: (mid ++ [closeBrace])) ∧
    (∀ cand, regexMatch text = some cand →
      extractQaPair env text = parseCandidate env cand) ∧
    (extractQaPair env text = .error .noJsonObject ↔
      ¬ ∃ pre mid post, text = pre ++ openBrace :: (mid ++ closeBrace :: post)) := by
  refine ⟨fun cand => regexMatch_eq_some text cand, ?_, ?_⟩
  · intro cand h
    simp [extractQaPair, h]
  · rw [← regexMatch_eq_none]
    constructor
    · intro h
      cases hm : regexMatch text with
      | none => rfl
      | some cand =>
        exfalso
        simp only [extractQaPair, hm] at h
        exact parseCandidate_ne_noJsonObject env cand h
    · intro h
      simp [extractQaPair, h]

/-- C1, worked example: in `blah {"qaPair":[]} blah` the candidate is
`{"qaPair":[]}`, and `not json` has no candidate. -/
theorem candidate_is_first_brace_to_last_brace_witness :
    regexMatch ("blah ".toList ++ docEmpty ++ " blah".toList) = some docEmpty ∧
    extractQaPair sampleEnv ("blah ".toList ++ docEmpty ++ " blah".toList) =
      parseCandidate sampleEnv docEmpty ∧
    extractQaPair sampleEnv "not json".toList = .error .noJsonObject :=
  ⟨by decide,
   (candidate_is_first_brace_to_last_brace sampleEnv _).2.1 docEmpty (by decide),
   (candidate_is_first_brace_to_last_brace sampleEnv "not json".toList).2.2.mpr (by
      rw [← regexMatch_eq_none]
      decide)⟩

/-- C2: when the candidate parses to an object whose `qaPair` is an array `L`,
the parser succeeds with exactly `L` (array order kept, nothing sorted, the
empty array included), and settling the request stores `L` in `aiResponse`
and leaves the error as it was. -/
theorem qaPair_array_stored_in_array_order (env : Env) (text cand : JsString)
    (props : List (JsString × Json)) (L : List Json)
    (hspan : regexMatch text = some cand)
    (hparse : env.jsonParse cand = .ok (.obj props))
    (hqa : lookupProp "qaPair".toList props = some (.arr L)) :
    extractQaPair env text = .ok (.arr L) ∧
    ∀ s : AppState,
      (sendDataToOpenAI.settle (extractQaPair env text) s).aiResponse = .arr L ∧
      (sendDataToOpenAI.settle (extractQaPair env text) s).error = s.error := by
  have h : extractQaPair env text = .ok (.arr L) := by
    simp only [extractQaPair, hspan, parseCandidate, hparse, readQaPair, hqa, Json.truthy,
      if_true]
  refine ⟨h, fun s => ?_⟩
  rw [h]
  exact ⟨rfl, rfl⟩

/-- C2, worked example: the pair with `index` 1 comes first in the array and
stays first. -/
theorem qaPair_array_stored_in_array_order_witness :
    extractQaPair sampleEnv ("Sure: ".toList ++ docSwapped) =
      .ok (.arr [qaObject "1" "B" "b", qaObject "0" "A" "a"]) ∧
    ∀ s : AppState,
      (sendDataToOpenAI.settle (extractQaPair sampleEnv ("Sure: ".toList ++ docSwapped)) s).aiResponse =
        .arr [qaObject "1" "B" "b", qaObject "0" "A" "a"] ∧
      (sendDataToOpenAI.settle (extractQaPair sampleEnv ("Sure: ".toList ++ docSwapped)) s).error = s.error :=
  qaPair_array_stored_in_array_order sampleEnv ("Sure: ".toList ++ docSwapped) docSwapped
    [("qaPair".toList, .arr [qaObject "1" "B" "b", qaObject "0" "A" "a"])]
    [qaObject "1" "B" "b", qaObject "0" "A" "a"] (by decide) (by rfl) (by rfl)

/-- The empty `qaPair` array of `blah {"qaPair":[]} blah` is stored without an
error. -/
theorem empty_qaPair_array_is_stored :
    extractQaPair sampleEnv ("blah ".toList ++ docEmpty ++ " blah".toList) = .ok (.arr []) := by
  rfl

/-- C3 as stated fails: the document `{"qaPair":true}` has a `qaPair` that is
not a sequence of question/answer objects, and the parser succeeds and stores
it. -/
theorem truthy_qaPair_of_any_shape_accepted :
    extractQaPair sampleEnv docFlag = .ok (.bool true) ∧
    specQaPairShape (.bool true) = false ∧
    (sendDataToOpenAI.settle (extractQaPair sampleEnv docFlag) initialState).aiResponse = .bool true ∧
    (sendDataToOpenAI.settle (extractQaPair sampleEnv docFlag) initialState).error = [] := by
  refine ⟨by rfl, by rfl, by rfl, by rfl⟩

/-- C3, amended: for a candidate that parses to a value other than `null`, the
parser succeeds exactly when the `qaPair` property is present and truthy.  A
truthy value is returned and stored in `aiResponse` whatever its shape, with
the error left alone; when the property is absent or falsy the parser throws
the missing-qaPair error, and settling sets the error message and leaves
`aiResponse` as it was.  Either way `isLoading` is cleared and `Go to Upload`
is shown, and nothing else changes. -/
theorem qaPair_checked_for_truthiness_only (env : Env) (text cand : JsString)
    (parsed : Json) (field : JsValue)
    (hspan : regexMatch text = some cand)
    (hparse : env.jsonParse cand = .ok parsed)
    (hread : readQaPair env parsed = .ok field) :
    (∀ v, extractQaPair env text = .ok v ↔ (field = some v ∧ v.truthy = true)) ∧
    (extractQaPair env text = .error .missingQaPair ↔ truthy field = false) ∧
    (∀ v, field = some v → v.truthy = true →
      ∀ s : AppState,
        sendDataToOpenAI.settle (extractQaPair env text) s =
          { s with aiResponse := v, isLoading := false, showGoToUploadButton := true }) ∧
    (truthy field = false →
      ∀ s : AppState,
        sendDataToOpenAI.settle (extractQaPair env text) s =
          { s with
            error := "Error contacting OpenAI: ".toList ++ Thrown.missingQaPair.message,
            isLoading := false, showGoToUploadButton := true }) := by
  have h : extractQaPair env text =
      match field with
      | none => .error .missingQaPair
      | some qaPair => if qaPair.truthy then .ok qaPair else .error .missingQaPair := by
    simp only [extractQaPair, hspan, parseCandidate, hparse, hread]
    cases field <;> rfl
  rw [h]
  cases field with
  | none =>
    refine ⟨fun v => by simp, by simp [truthy], fun v hv => ?_, fun _ s => rfl⟩
    cases hv
  | some qaPair =>
    by_cases ht : qaPair.truthy = true
    · refine ⟨fun v => ?_, by simp [truthy, ht], fun v hv _ s => ?_, fun hf => ?_⟩
      · simp only [ht, if_true, Except.ok.injEq, Option.some.injEq]
        constructor
        · intro hv
          subst hv
          exact ⟨rfl, ht⟩
        · intro hv
          exact hv.1
      · simp only [Option.some.injEq] at hv
        subst hv
        simp only [ht, if_true]
        rfl
      · simp [truthy, ht] at hf
    · refine ⟨fun v => ?_, by simp [truthy, ht], fun v hv hvt => ?_, fun _ s => ?_⟩
      · simp only [ht, Bool.false_eq_true, if_false]
        constructor
        · intro hv
          cases hv
        · rintro ⟨hv, hvt⟩
          simp only [Option.some.injEq] at hv
          subst hv
          exact absurd hvt ht
      · simp only [Option.some.injEq] at hv
        subst hv
        exact absurd hvt ht
      · simp only [ht, Bool.false_eq_true, if_false]
        rfl

/-- C3, worked example: `{"other":1}` has no `qaPair`, so the parser throws
the missing-qaPair error and settling keeps the old answer; `{"qaPair":true}`
has a truthy `qaPair` that is no list, and settling stores it. -/
theorem qaPair_checked_for_truthiness_only_witness :
    extractQaPair sampleEnv docOther = .error .missingQaPair ∧
    sendDataToOpenAI.settle (extractQaPair sampleEnv docOther) initialState =
      { initialState with
        error := "Error contacting OpenAI: ".toList ++ Thrown.missingQaPair.message,
        isLoading := false, showGoToUploadButton := true } ∧
    sendDataToOpenAI.settle (extractQaPair sampleEnv docFlag) initialState =
      { initialState with
        aiResponse := .bool true, isLoading := false, showGoToUploadButton := true } :=
  ⟨(qaPair_checked_for_truthiness_only sampleEnv docOther docOther
      (.obj [("other".toList, .num "1".toList)]) none (by decide) (by rfl) (by rfl)).2.1.mpr
      (by rfl),
   (qaPair_checked_for_truthiness_only sampleEnv docOther docOther
      (.obj [("other".toList, .num "1".toList)]) none (by decide) (by rfl) (by rfl)).2.2.2
      (by rfl) initialState,
   (qaPair_checked_for_truthiness_only sampleEnv docFlag docFlag
      (.obj [("qaPair".toList, .bool true)]) (some (.bool true)) (by decide) (by rfl)
      (by rfl)).2.2.1 (.bool true) rfl (by rfl) initialState⟩

/-! ## The prompt assembler -/

theorem imageContents_of_readable (env : Env) (files : List File)
    (hread : ∀ f ∈ files, (env.readAsDataURL f).isSome = true) :
    imageContents env files = .ok (files.map fun f => imagePart f (encodedText env f)) := by
  induction files with
  | nil => rfl
  | cons file files ih =>
    have hfile : (env.readAsDataURL file).isSome = true := hread file (by simp)
    have hrest := ih fun f hf => hread f (by simp [hf])
    obtain ⟨result, hresult⟩ := Option.isSome_iff_exists.mp hfile
    simp [imageContents, convertImageToBase64, encodedText, hresult, hrest]

/-- C4: the user message is one image part per uploaded file, in upload
order, followed by the text part as its last element (alone when there is no
image), and the text part contains the website text and the resume text
verbatim. -/
theorem content_is_images_then_one_text_part (env : Env) (files : List File)
    (websiteData pdfText : JsString)
    (hread : ∀ f ∈ files, (env.readAsDataURL f).isSome = true) :
    buildContent env files websiteData pdfText =
      .ok ((files.map fun f => imagePart f (encodedText env f)) ++
        [.text (promptText websiteData pdfText)]) ∧
    websiteData <:+: promptText websiteData pdfText ∧
    pdfText <:+: promptText websiteData pdfText := by
  refine ⟨?_, ?_, ?_⟩
  · simp [buildContent, imageContents_of_readable env files hread, textContent]
  · exact ⟨promptHead, promptMiddle ++ pdfText ++ promptTail, by simp [promptText]⟩
  · exact ⟨promptHead ++ websiteData ++ promptMiddle, promptTail, by simp [promptText]⟩

/-- C4, worked example: two screenshots give two image parts, in upload
order, then the text part. -/
theorem content_is_images_then_one_text_part_witness :
    buildContent sampleEnv [samplePng, sampleJpeg] "Acme Corp hires engineers".toList
        "Experienced engineer".toList =
      .ok [.imageUrl "data:image/png;base64,AAAA".toList,
           .imageUrl "data:image/jpeg;base64,AAAA".toList,
           .text (promptText "Acme Corp hires engineers".toList "Experienced engineer".toList)] ∧
    "Acme Corp hires engineers".toList <:+:
      promptText "Acme Corp hires engineers".toList "Experienced engineer".toList ∧
    "Experienced engineer".toList <:+:
      promptText "Acme Corp hires engineers".toList "Experienced engineer".toList :=
  content_is_images_then_one_text_part sampleEnv [samplePng, sampleJpeg]
    "Acme Corp hires engineers".toList "Experienced engineer".toList (fun _ _ => rfl)

/-- With no image the user message is the text part alone. -/
theorem content_without_images (env : Env) (websiteData pdfText : JsString) :
    buildContent env [] websiteData pdfText = .ok [.text (promptText websiteData pdfText)] := rfl

/-! ## The image upload handler -/

/-- C10: after `handleImageUpload` the image list is the previous list
followed by the files of the batch whose type starts with `image/`, in batch
order; nothing is removed or reordered and no other file is added. -/
theorem image_upload_appends_image_files (files : List File) (s : AppState) :
    (handleImageUpload files s).imageFiles = s.imageFiles ++ files.filter isImageFile := by
  unfold handleImageUpload
  induction files generalizing s with
  | nil => simp
  | cons file files ih =>
    rw [List.foldl_cons, ih]
    by_cases h : isImageFile file = true
    · simp [h, List.filter_cons]
    · simp [h, List.filter_cons]

/-- A batch of a screenshot, a text file and a second screenshot adds the two
screenshots to the list. -/
theorem image_upload_example :
    (handleImageUpload [sampleJpeg, sampleNotes, samplePng]
      { initialState with imageFiles := [samplePng] }).imageFiles =
      [samplePng, sampleJpeg, samplePng] := by
  rfl

/-! ## The session invariant -/

theorem consistent_initial : Session.initial.Consistent :=
  ⟨rfl, rfl, fun _ => rfl, fun h => by cases h⟩

/-- A change that leaves the flags, the answer, the reveal progress and the
suspended calls alone keeps the invariant. -/
theorem consistent_of_same_core {σ : Session} (h : σ.Consistent) (s : AppState)
    (h1 : s.isLoading = σ.app.isLoading)
    (h2 : s.showUploadSection = σ.app.showUploadSection)
    (h3 : s.showGoToUploadButton = σ.app.showGoToUploadButton)
    (h4 : s.aiResponse = σ.app.aiResponse)
    (h5 : s.currentIndex = σ.app.currentIndex)
    (h6 : s.displayedResponse = σ.app.displayedResponse) :
    Session.Consistent { σ with app := s } := by
  obtain ⟨hp, hn, ha, hf⟩ := h
  refine ⟨?_, ?_, ?_, ?_⟩
  · simpa only [onePhase, h1, h2, h3] using hp
  · simpa only [h1] using hn
  · simpa only [h3, h4] using ha
  · simpa only [h1, h5, h6] using hf

theorem handleImageUpload_core (files : List File) (s : AppState) :
    (handleImageUpload files s).isLoading = s.isLoading ∧
    (handleImageUpload files s).showUploadSection = s.showUploadSection ∧
    (handleImageUpload files s).showGoToUploadButton = s.showGoToUploadButton ∧
    (handleImageUpload files s).aiResponse = s.aiResponse ∧
    (handleImageUpload files s).currentIndex = s.currentIndex ∧
    (handleImageUpload files s).displayedResponse = s.displayedResponse := by
  unfold handleImageUpload
  induction files generalizing s with
  | nil => simp
  | cons file files ih =>
    rw [List.foldl_cons]
    by_cases h : isImageFile file = true
    · simpa [h] using ih _
    · simpa [h] using ih _

theorem revealDue_imp_answer (env : Env) (s : AppState) (h : revealDue env s = true) :
    s.aiResponse ≠ .str [] := by
  intro hs
  simp [revealDue, hs, Json.truthy] at h

/-- Every event keeps the invariant. -/
theorem consistent_step (env : Env) {σ σ1 : Session} (e : Event) (h : σ.Consistent)
    (hstep : step env σ e = some σ1) : σ1.Consistent := by
  cases e with
  | pdfSelected file =>
    simp only [step, Option.some.injEq] at hstep
    subst hstep
    apply consistent_of_same_core h <;> (unfold handlePdfUpload; split <;> rfl)
  | pdfExtracted result =>
    simp only [step, Option.some.injEq] at hstep
    subst hstep
    apply consistent_of_same_core h <;> (unfold extractTextFromPdf; split <;> rfl)
  | imagesSelected files =>
    simp only [step, Option.some.injEq] at hstep
    subst hstep
    obtain ⟨h1, h2, h3, h4, h5, h6⟩ := handleImageUpload_core files σ.app
    exact consistent_of_same_core h _ h1 h2 h3 h4 h5 h6
  | urlTyped value =>
    simp only [step, Option.some.injEq] at hstep
    subst hstep
    apply consistent_of_same_core h <;> rfl
  | fetchClicked =>
    simp only [step, Option.some.injEq] at hstep
    subst hstep
    apply consistent_of_same_core h <;> (unfold handleUrlSubmit; split <;> rfl)
  | websiteSettled result =>
    simp only [step, Option.some.injEq] at hstep
    subst hstep
    apply consistent_of_same_core h <;> (unfold fetchWebsiteText; split <;> rfl)
  | submitClicked =>
    simp only [step, Option.some.injEq] at hstep
    subst hstep
    unfold clickSubmit
    by_cases hen : submitEnabled σ.app = true
    · simp only [hen, if_true]
      unfold sendDataToOpenAI.start
      by_cases hkey : keyConfigured env = true
      · simp only [hkey, if_true]
        obtain ⟨hp, hn, ha, hf⟩ := h
        simp only [submitEnabled, Bool.and_eq_true, Bool.not_eq_true'] at hen
        have hgo : σ.app.showGoToUploadButton = false := by
          simp only [onePhase, hen.1, hen.2] at hp
          simpa using hp
        refine ⟨?_, ?_, ?_, ?_⟩
        · simp [onePhase, hgo]
        · simp only [hen.2] at hn
          simp [hn]
        · intro _
          exact ha hgo
        · intro _
          exact ⟨rfl, rfl⟩
      · simp only [hkey, Bool.false_eq_true, if_false]
        apply consistent_of_same_core h <;> rfl
    · simp only [hen, Bool.false_eq_true, if_false]
      exact h
  | submitSettled i api =>
    simp only [step] at hstep
    cases hp : σ.pending[i]? with
    | none =>
      rw [hp] at hstep
      cases hstep
    | some p =>
      rw [hp] at hstep
      simp only [Option.some.injEq] at hstep
      subst hstep
      obtain ⟨hph, hn, ha, hf⟩ := h
      have hi : i < σ.pending.length := by
        by_contra hlt
        rw [List.getElem?_eq_none (by omega)] at hp
        cases hp
      have hload : σ.app.isLoading = true := by
        by_contra hl
        simp only [hl, Bool.false_eq_true, if_false] at hn
        omega
      simp only [hload, if_true] at hn
      have hup : σ.app.showUploadSection = false := by
        simp only [onePhase, hload] at hph
        cases hu : σ.app.showUploadSection <;> simp_all
      refine ⟨?_, ?_, ?_, ?_⟩
      · unfold sendDataToOpenAI.settle
        cases sendDataToOpenAI.tryBlock env api p <;> simp [onePhase, hup]
      · have hlen : (σ.pending.eraseIdx i).length = 0 := by
          rw [List.length_eraseIdx, if_pos hi]
          omega
        unfold sendDataToOpenAI.settle
        cases sendDataToOpenAI.tryBlock env api p <;> simp [hlen]
      · intro hgo
        unfold sendDataToOpenAI.settle at hgo
        cases sendDataToOpenAI.tryBlock env api p <;> simp at hgo
      · intro hl
        unfold sendDataToOpenAI.settle at hl
        cases sendDataToOpenAI.tryBlock env api p <;> simp at hl
  | revealTimer =>
    simp only [step] at hstep
    by_cases hdue : revealDue env σ.app = true
    · simp only [hdue, if_true, Option.map_eq_some'] at hstep
      obtain ⟨s, hs, rfl⟩ := hstep
      simp only [revealTick, Option.map_eq_some'] at hs
      obtain ⟨shown, -, rfl⟩ := hs
      obtain ⟨hph, hn, ha, hf⟩ := h
      have hgo : σ.app.showGoToUploadButton = true := by
        by_contra hg
        exact revealDue_imp_answer env σ.app hdue (ha (by simpa using hg))
      have hload : σ.app.isLoading = false := by
        simp only [onePhase, hgo] at hph
        cases hl : σ.app.isLoading <;> simp_all
      refine ⟨?_, ?_, ?_, ?_⟩
      · simpa only [onePhase] using hph
      · exact hn
      · exact ha
      · intro hl
        exact absurd hl (by simp [hload])
    · simp only [hdue, Bool.false_eq_true, if_false] at hstep
      cases hstep
  | goToUploadClicked =>
    simp only [step, Option.some.injEq] at hstep
    subst hstep
    unfold clickGoToUpload
    by_cases hgo : σ.app.showGoToUploadButton = true
    · simp only [hgo, if_true]
      obtain ⟨hph, hn, ha, hf⟩ := h
      have hload : σ.app.isLoading = false := by
        simp only [onePhase, hgo] at hph
        cases hl : σ.app.isLoading <;> simp_all
      refine ⟨?_, ?_, ?_, ?_⟩
      · simp [onePhase, goToUpload, hload]
      · simpa only [goToUpload] using hn
      · intro _
        rfl
      · intro hl
        exact absurd hl (by simp [goToUpload, hload])
    · simp only [hgo, Bool.false_eq_true, if_false]
      exact h

/-- Every reachable session satisfies the invariant. -/
theorem consistent_of_reachable (env : Env) {σ : Session} (h : Reachable env σ) :
    σ.Consistent := by
  induction h with
  | initial => exact consistent_initial
  | next e _ hstep ih => exact consistent_step env e ih hstep

theorem reachable_runEvents (env : Env) (es : List Event) {σ σ1 : Session}
    (h : Reachable env σ) (hrun : runEvents env es σ = some σ1) : Reachable env σ1 := by
  induction es generalizing σ with
  | nil =>
    simp only [runEvents, Option.some.injEq] at hrun
    subst hrun
    exact h
  | cons e es ih =>
    simp only [runEvents, Option.bind_eq_some] at hrun
    obtain ⟨σ2, hstep, hrest⟩ := hrun
    exact ih (Reachable.next e h hstep) hrest

theorem sampleSubmitting_reachable : Reachable sampleEnv sampleSubmitting :=
  reachable_runEvents sampleEnv submitTrace Reachable.initial (by rfl)

theorem sampleRevealing_reachable : Reachable sampleEnv sampleRevealing :=
  reachable_runEvents sampleEnv (submitTrace ++ [.submitSettled 0 (replyWith docSingle)])
    Reachable.initial (by rfl)

theorem sampleDone_reachable : Reachable sampleEnv sampleDone :=
  reachable_runEvents sampleEnv
    (submitTrace ++ [.submitSettled 0 (replyWith docSingle), .revealTimer])
    Reachable.initial (by rfl)

/-! ## The session state machine -/

/-- C7: while a request is in flight (`isLoading` holds) the submit button is
not enabled, and a click on it changes nothing: the state is the same and no
further call is suspended. -/
theorem submit_click_while_loading_is_noop (env : Env) (σ : Session)
    (h : σ.app.isLoading = true) :
    submitEnabled σ.app = false ∧ clickSubmit env σ = σ ∧
    step env σ .submitClicked = some σ := by
  have hen : submitEnabled σ.app = false := by simp [submitEnabled, h]
  refine ⟨hen, ?_, ?_⟩
  · simp [clickSubmit, hen]
  · simp [step, clickSubmit, hen]

/-- C7, worked example: a second click while the sample request runs. -/
theorem submit_click_while_loading_is_noop_witness :
    sampleSubmitting.app.isLoading = true ∧ sampleSubmitting.pending.length = 1 ∧
    clickSubmit sampleEnv sampleSubmitting = sampleSubmitting :=
  ⟨by rfl, by rfl, (submit_click_while_loading_is_noop sampleEnv sampleSubmitting (by rfl)).2.1⟩

/-- C8: in every reachable session exactly one of `showUploadSection`,
`isLoading` and `showGoToUploadButton` is set; in particular `isLoading` never
holds together with `showGoToUploadButton`. -/
theorem exactly_one_phase_when_reachable (env : Env) (σ : Session)
    (h : Reachable env σ) :
    onePhase σ.app = true ∧
    ¬ (σ.app.isLoading = true ∧ σ.app.showGoToUploadButton = true) := by
  have hp := (consistent_of_reachable env h).phase
  refine ⟨hp, ?_⟩
  rintro ⟨hl, hg⟩
  simp [onePhase, hl, hg] at hp

/-- C8, worked example: the session in which the reveal has started. -/
theorem exactly_one_phase_when_reachable_witness :
    onePhase sampleRevealing.app = true ∧
    ¬ (sampleRevealing.app.isLoading = true ∧
      sampleRevealing.app.showGoToUploadButton = true) :=
  exactly_one_phase_when_reachable sampleEnv sampleRevealing
    (reachable_runEvents sampleEnv (submitTrace ++ [.submitSettled 0 (replyWith docSingle)])
      Reachable.initial (by rfl))

/-- C5 as stated fails: after a reply without a JSON object the upload
section is still hidden; the view shows `Go to Upload` and the error. -/
theorem failed_submit_leaves_upload_section_hidden :
    (step sampleEnv sampleSubmitting (.submitSettled 0 (replyWith "not json".toList))).map
        (fun σ => (σ.app.showUploadSection, σ.app.showGoToUploadButton, σ.app.isLoading,
          σ.app.error)) =
      some (false, true, false,
        "Error contacting OpenAI: Response does not contain valid JSON.".toList) := by
  rfl

/-- C5, amended: when the `try` block of a running submit fails (a file read,
the API call, the pattern match, `JSON.parse` or the `qaPair` check), the
session afterwards has `isLoading` cleared, the error set to
`Error contacting OpenAI: ` followed by the message, and no answer held; the
upload section stays hidden and `Go to Upload` is shown, and the click on it
brings the upload section back with the error still set. -/
theorem failed_submit_shows_error_and_go_to_upload (env : Env) (σ : Session) (i : Nat)
    (api : Api) (p : Pending) (err : Thrown)
    (hreach : Reachable env σ) (hp : σ.pending[i]? = some p)
    (hfail : sendDataToOpenAI.tryBlock env api p = .error err) :
    ∃ σ1, step env σ (.submitSettled i api) = some σ1 ∧
      σ1.app.error = "Error contacting OpenAI: ".toList ++ err.message ∧
      σ1.app.isLoading = false ∧ σ1.app.aiResponse = .str [] ∧
      σ1.app.showUploadSection = false ∧ σ1.app.showGoToUploadButton = true ∧
      σ1.pending = [] ∧
      (clickGoToUpload σ1).app.showUploadSection = true ∧
      (clickGoToUpload σ1).app.error = σ1.app.error := by
  obtain ⟨hph, hn, ha, hf⟩ := consistent_of_reachable env hreach
  have hi : i < σ.pending.length := by
    by_contra hlt
    rw [List.getElem?_eq_none (by omega)] at hp
    cases hp
  have hload : σ.app.isLoading = true := by
    by_contra hl
    simp only [hl, Bool.false_eq_true, if_false] at hn
    omega
  simp only [hload, if_true] at hn
  have hflags : σ.app.showUploadSection = false ∧ σ.app.showGoToUploadButton = false := by
    simp only [onePhase, hload] at hph
    cases hu : σ.app.showUploadSection <;> cases hg : σ.app.showGoToUploadButton <;> simp_all
  have hlen : (σ.pending.eraseIdx i).length = 0 := by
    rw [List.length_eraseIdx, if_pos hi]
    omega
  refine ⟨{ app := sendDataToOpenAI.settle (sendDataToOpenAI.tryBlock env api p) σ.app
            pending := σ.pending.eraseIdx i },
    by simp only [step, hp], ?_⟩
  rw [hfail]
  refine ⟨rfl, rfl, ha hflags.2, hflags.1, rfl, List.length_eq_zero.mp hlen, ?_, ?_⟩
  · simp [clickGoToUpload, sendDataToOpenAI.settle, goToUpload]
  · simp [clickGoToUpload, sendDataToOpenAI.settle, goToUpload]

/-- C5, worked example: the sample request answered with `not json`. -/
theorem failed_submit_shows_error_and_go_to_upload_witness :
    ∃ σ1, step sampleEnv sampleSubmitting (.submitSettled 0 (replyWith "not json".toList)) =
        some σ1 ∧
      σ1.app.error = "Error contacting OpenAI: ".toList ++ Thrown.noJsonObject.message ∧
      σ1.app.isLoading = false ∧ σ1.app.aiResponse = .str [] ∧
      σ1.app.showUploadSection = false ∧ σ1.app.showGoToUploadButton = true ∧
      σ1.pending = [] ∧
      (clickGoToUpload σ1).app.showUploadSection = true ∧
      (clickGoToUpload σ1).app.error = σ1.app.error :=
  failed_submit_shows_error_and_go_to_upload sampleEnv sampleSubmitting 0
    (replyWith "not json".toList)
    ⟨[samplePng], "Acme Corp hires engineers".toList, "Experienced engineer".toList⟩
    .noJsonObject
    (reachable_runEvents sampleEnv submitTrace Reachable.initial (by rfl)) (by rfl) (by rfl)

/-- C6 as stated fails: the session reached by reading a resume, selecting a
screenshot, fetching the website, submitting and watching the reveal is in
the phase `Done`, and `Go to Upload` keeps the resume text, the image and the
website text; after a failed submit it keeps the error as well.  Neither
result is the initial state. -/
theorem go_to_upload_does_not_restore_initial_state :
    inDone sampleEnv sampleDone.app = true ∧
    (clickGoToUpload sampleDone).app.pdfText = "Experienced engineer".toList ∧
    (clickGoToUpload sampleDone).app.imageFiles = [samplePng] ∧
    (clickGoToUpload sampleDone).app.websiteData = "Acme Corp hires engineers".toList ∧
    (clickGoToUpload sampleDone).app ≠ initialState ∧
    inDone sampleEnv sampleFailed.app = true ∧
    (clickGoToUpload sampleFailed).app.error =
      "Error contacting OpenAI: Response does not contain valid JSON.".toList ∧
    (clickGoToUpload sampleFailed).app ≠ initialState := by
  refine ⟨by rfl, by rfl, by rfl, by rfl, ?_, by rfl, by rfl, ?_⟩
  · intro h
    have h1 : (clickGoToUpload sampleDone).app.pdfText = initialState.pdfText := by rw [h]
    exact absurd h1 (by decide)
  · intro h
    have h1 : (clickGoToUpload sampleFailed).app.error = initialState.error := by rw [h]
    exact absurd h1 (by decide)

/-- C6, amended: from every state in the phase `Done` the action
`Go to Upload` shows the upload section again, hides its own button and
clears the answer, the displayed text and the reveal index; the resume text,
the image list, the website text, the URL, the fetched flag and the error
stay as they were. -/
theorem go_to_upload_clears_answer_only (env : Env) (σ : Session)
    (h : inDone env σ.app = true) :
    clickGoToUpload σ =
      { σ with app :=
        { initialState with
          pdfText := σ.app.pdfText, error := σ.app.error, imageFiles := σ.app.imageFiles,
          websiteData := σ.app.websiteData, url := σ.app.url,
          websiteFetched := σ.app.websiteFetched } } := by
  simp only [inDone, Bool.and_eq_true, Bool.not_eq_true'] at h
  obtain ⟨⟨hgo, hload⟩, -⟩ := h
  obtain ⟨app, pending⟩ := σ
  obtain ⟨a1, a2, a3, a4, a5, a6, a7, a8, a9, a10, a11, a12⟩ := app
  simp only at hgo hload
  subst hgo hload
  rfl

/-- C6, worked example: the reset of the sample session. -/
theorem go_to_upload_clears_answer_only_witness :
    clickGoToUpload sampleDone =
      { sampleDone with app :=
        { initialState with
          pdfText := "Experienced engineer".toList, error := [], imageFiles := [samplePng],
          websiteData := "Acme Corp hires engineers".toList, url := [],
          websiteFetched := true } } :=
  go_to_upload_clears_answer_only sampleEnv sampleDone (by rfl)

/-! ## The reveal effect -/

theorem revealSteps_succ (env : Env) (n : Nat) (s : AppState) :
    revealSteps env (n + 1) s =
      (revealSteps env n s).bind fun t => if revealDue env t then revealTick t else none := by
  induction n generalizing s with
  | zero =>
    simp only [revealSteps, Option.some_bind]
    by_cases h : revealDue env s = true
    · simp only [h, if_true]
      cases revealTick s <;> rfl
    · simp [h]
  | succ n ih =>
    rw [revealSteps]
    by_cases h : revealDue env s = true
    · simp only [h, if_true]
      cases ht : revealTick s with
      | none => simp [revealSteps, h, ht]
      | some t =>
        simp only [Option.some_bind]
        rw [ih t]
        conv_rhs => rw [revealSteps]
        simp [h, ht]
    · simp [h, revealSteps]

/-- The reveal over an array: one element per timer. -/
theorem revealSteps_array (env : Env) (L : List Json) (pieces : List JsString) (s : AppState)
    (hs : s.aiResponse = .arr L) (h0 : s.currentIndex = 0) (hd : s.displayedResponse = [])
    (hlen : L.length ≤ 2 ^ 53) (hstr : L.map toStringJs = pieces.map some)
    (k : Nat) (hk : k ≤ L.length) :
    revealSteps env k s =
      some { s with currentIndex := k, displayedResponse := (pieces.take k).flatten } := by
  have hpl : pieces.length = L.length := by
    have := congrArg List.length hstr
    simpa using this.symm
  induction k with
  | zero =>
    obtain ⟨a1, a2, a3, a4, a5, a6, a7, a8, a9, a10, a11, a12⟩ := s
    simp only at h0 hd
    subst h0 hd
    rfl
  | succ k ih =>
    have hkl : k < L.length := hk
    rw [revealSteps_succ, ih (by omega)]
    have hdue : revealDue env
        { s with currentIndex := k, displayedResponse := (pieces.take k).flatten } = true := by
      simp [revealDue, hs, Json.truthy, indexBelowLength, hkl]
    have hpiece : toStringJs L[k] = some pieces[k] := by
      have h1 := congrArg (fun l => l[k]?) hstr
      have hkp : k < pieces.length := by omega
      simp only [List.getElem?_map, List.getElem?_eq_getElem hkl,
        List.getElem?_eq_getElem hkp, Option.map_some', Option.some.injEq] at h1
      exact h1
    have htake : (pieces.take (k + 1)).flatten = (pieces.take k).flatten ++ pieces[k] := by
      have hkp : k < pieces.length := by omega
      rw [List.take_succ, List.getElem?_eq_getElem hkp, List.flatten_append]
      simp
    have hinc : jsIncrement k = k + 1 := by
      unfold jsIncrement
      rw [if_pos (by omega)]
    simp only [Option.some_bind, hdue, if_true]
    simp [revealTick, hs, elementAt, List.getElem?_eq_getElem hkl, concatValue, hpiece,
      htake, hinc]

/-- Had `aiResponse` held a non-empty text, the same effect would reveal it
one code unit per timer: after `k` timers the index is `k` and the displayed
text is the first `k` code units. -/
theorem revealSteps_text (env : Env) (cs : JsString) (s : AppState)
    (hs : s.aiResponse = .str cs) (h0 : s.currentIndex = 0) (hd : s.displayedResponse = [])
    (hlen : cs.length ≤ 2 ^ 53) (k : Nat) (hk : k ≤ cs.length) :
    revealSteps env k s =
      some { s with currentIndex := k, displayedResponse := cs.take k } := by
  induction k with
  | zero =>
    obtain ⟨a1, a2, a3, a4, a5, a6, a7, a8, a9, a10, a11, a12⟩ := s
    simp only at h0 hd
    subst h0 hd
    rfl
  | succ k ih =>
    have hkl : k < cs.length := hk
    rw [revealSteps_succ, ih (by omega)]
    have hne : cs ≠ [] := by
      intro h
      rw [h] at hkl
      simp at hkl
    have hdue : revealDue env { s with currentIndex := k, displayedResponse := cs.take k } =
        true := by
      simp [revealDue, hs, Json.truthy, indexBelowLength, hkl, hne]
    have hinc : jsIncrement k = k + 1 := by
      unfold jsIncrement
      rw [if_pos (by omega)]
    have hstr : toStringJs (.str [cs[k]]) = some [cs[k]] := rfl
    have htake : cs.take (k + 1) = cs.take k ++ [cs[k]] := by
      rw [List.take_succ, List.getElem?_eq_getElem hkl]
      rfl
    simp only [Option.some_bind, hdue, if_true]
    simp only [revealTick, hs, elementAt, List.getElem?_eq_getElem hkl, Option.map_some',
      concatValue, hstr, htake, hinc]

/-- C9: the code evaluated on the answer list with one question/answer pair.
The claim asks for one character of the serialized list per timer; the effect
indexes the stored array instead of a text, so a single timer appends the 15
characters `[object Object]` at once and no second timer is scheduled. -/
theorem reveal_of_one_pair_ends_after_one_tick :
    sampleRevealing.app.aiResponse = .arr [qaObject "0" "Q" "A"] ∧
    (revealSteps sampleEnv 1 sampleRevealing.app).map
        (fun s => (s.currentIndex, s.displayedResponse, s.displayedResponse.length,
          revealDue sampleEnv s)) =
      some (1, "[object Object]".toList, 15, false) ∧
    revealSteps sampleEnv 2 sampleRevealing.app = none := by
  refine ⟨by rfl, by rfl, by rfl⟩

/-- What the effect does after a submit that stored an answer array of `n`
elements: it advances one array element per timer, in array order.  After
`k ≤ n` timers the index is `k` and the displayed text is the concatenation of
the string renderings of the first `k` elements (`[object Object]` for a
plain object), and a timer is scheduled exactly while `k < n`.  The elements
are assumed to have a string rendering. -/
theorem reveal_advances_one_array_element_per_tick (env : Env) (σ : Session) (i : Nat)
    (api : Api) (p : Pending) (L : List Json) (pieces : List JsString)
    (hreach : Reachable env σ) (hp : σ.pending[i]? = some p)
    (hok : sendDataToOpenAI.tryBlock env api p = .ok (.arr L))
    (hlen : L.length ≤ 2 ^ 53) (hstr : L.map toStringJs = pieces.map some) :
    ∃ σ1, step env σ (.submitSettled i api) = some σ1 ∧
      σ1.app.aiResponse = .arr L ∧
      ∀ k, k ≤ L.length →
        revealSteps env k σ1.app =
          some { σ1.app with currentIndex := k,
                             displayedResponse := (pieces.take k).flatten } ∧
        revealDue env { σ1.app with currentIndex := k,
                                    displayedResponse := (pieces.take k).flatten } =
          decide (k < L.length) := by
  obtain ⟨hph, hn, ha, hf⟩ := consistent_of_reachable env hreach
  have hi : i < σ.pending.length := by
    by_contra hlt
    rw [List.getElem?_eq_none (by omega)] at hp
    cases hp
  have hload : σ.app.isLoading = true := by
    by_contra hl
    simp only [hl, Bool.false_eq_true, if_false] at hn
    omega
  obtain ⟨hidx, hshown⟩ := hf hload
  refine ⟨{ app := sendDataToOpenAI.settle (sendDataToOpenAI.tryBlock env api p) σ.app
            pending := σ.pending.eraseIdx i },
    by simp only [step, hp], ?_, ?_⟩
  · rw [hok]
    rfl
  · intro k hk
    rw [hok]
    refine ⟨revealSteps_array env L pieces (sendDataToOpenAI.settle (.ok (.arr L)) σ.app) rfl hidx hshown
      hlen hstr k hk, ?_⟩
    simp [revealDue, sendDataToOpenAI.settle, Json.truthy, indexBelowLength]

/-- The one-pair answer of the sample session, timer by timer. -/
theorem reveal_advances_one_array_element_per_tick_witness :
    ∃ σ1, step sampleEnv sampleSubmitting (.submitSettled 0 (replyWith docSingle)) = some σ1 ∧
      σ1.app.aiResponse = .arr [qaObject "0" "Q" "A"] ∧
      ∀ k, k ≤ [qaObject "0" "Q" "A"].length →
        revealSteps sampleEnv k σ1.app =
          some { σ1.app with currentIndex := k,
                             displayedResponse :=
                               (["[object Object]".toList].take k).flatten } ∧
        revealDue sampleEnv { σ1.app with currentIndex := k,
                                          displayedResponse :=
                                            (["[object Object]".toList].take k).flatten } =
          decide (k < [qaObject "0" "Q" "A"].length) :=
  reveal_advances_one_array_element_per_tick sampleEnv sampleSubmitting 0 (replyWith docSingle)
    ⟨[samplePng], "Acme Corp hires engineers".toList, "Experienced engineer".toList⟩
    [qaObject "0" "Q" "A"] ["[object Object]".toList]
    (reachable_runEvents sampleEnv submitTrace Reachable.initial (by rfl)) (by rfl) (by rfl)
    (by decide) (by rfl)

end JobHelper
